import Mathlib

/-!
Shallow embedding of the `bot_fvg` trading engine (Rust sources under `src/`)
and verification of the frozen claims about it.

Modelling conventions:
* `f64` values are embedded as exact rationals `ℚ`; `i64` timestamps as `ℤ`;
  `usize`/`u16`/`u32` as `ℕ`.
* Fallible Rust functions returning `Result` are embedded as `Except`.
  Error strings built with `format!` are abstracted to enum constructors or to
  the message argument they carry.
* `HashMap`s whose iteration order does not matter for the claims are embedded
  as association lists (`List (key × value)`).
-/

namespace BotFvg

/-! ## types.rs -/

/-- Candle record from `src/types.rs` (`timestamp, open, high, low, close, volume`). -/
structure Candle where
  timestamp : ℤ
  open_ : ℚ
  high : ℚ
  low : ℚ
  close : ℚ
  volume : ℚ
deriving DecidableEq

/-- Default candle used for (never-reached) out-of-bounds indexing in loops. -/
def cdef : Candle := ⟨0, 0, 0, 0, 0, 0⟩

/-- FVG direction from `src/types.rs`. -/
inductive FVGType where
  | bullish
  | bearish
deriving DecidableEq

/-- FVG zone record from `src/types.rs`. -/
structure FVGZone where
  fvg_type : FVGType
  zone_high : ℚ
  zone_low : ℚ
  impulse_high : ℚ
  impulse_low : ℚ
  created_timestamp : ℤ
  is_filled : Bool
deriving DecidableEq

/-- Signal kind from `src/types.rs`. -/
inductive SignalType where
  | buyBreakout
  | sellBreakout
  | exitSignal
deriving DecidableEq

/-- Trade signal from `src/types.rs`.  The source field `risk_reward_ratio` is
named `risk_reward` here. -/
structure TradeSignal where
  signal_type : SignalType
  fvg_zone : FVGZone
  entry_price : ℚ
  stop_loss : ℚ
  take_profit_1 : ℚ
  take_profit_2 : ℚ
  position_size : ℚ
  risk_amount : ℚ
  risk_reward : ℚ
  timestamp : ℤ
deriving DecidableEq

/-- Open-position record from `src/types.rs`. -/
structure PositionData where
  is_open : Bool
  entry_price : ℚ
  entry_time : ℤ
  position_size : ℚ
  stop_loss : ℚ
  take_profit_1 : ℚ
  take_profit_2 : ℚ
  unrealized_pnl : ℚ
  risk_amount : ℚ
  max_favorable_excursion : ℚ
  order_id : String
  actual_entry : Option ℚ
  actual_exit : Option ℚ
deriving DecidableEq

/-- Process-wide risk metrics from `src/types.rs`. -/
structure RiskMetrics where
  account_balance : ℚ
  current_equity : ℚ
  daily_pnl : ℚ
  max_daily_loss : ℚ
  drawdown_percentage : ℚ
  max_risk_per_trade : ℚ
  trading_enabled : Bool
  trades_today : ℕ
  wins_today : ℕ
deriving DecidableEq

/-! ## config.rs -/

/-- Constant `MAX_RISK_PER_TRADE_PCT = 0.01` from `src/config.rs`. -/
def MAX_RISK_PER_TRADE_PCT : ℚ := 1 / 100

/-- Constant `MAX_OPEN_POSITIONS = 2` from `src/config.rs`. -/
def MAX_OPEN_POSITIONS : ℕ := 2

/-- Per-symbol parameter tuple from `src/config.rs`. -/
structure SymbolParams where
  min_gap_pct : ℚ
  min_vol_mult : ℚ
  fvg_lookback : ℕ
  sl_atr_mult : ℚ
  tp_mult : ℚ
  time_stop : ℕ
  qty_step : ℚ
deriving DecidableEq

/-! ## position_manager.rs -/

/-- `calculate_position_size` from `src/position_manager.rs:5-22`:
risk budget is `balance × MAX_RISK_PER_TRADE_PCT` capped by the remaining daily
drawdown budget; quantity is rounded down to the lot step. -/
def calculate_position_size (signal : TradeSignal) (metrics : RiskMetrics)
    (p : SymbolParams) : ℚ :=
  let max_risk := metrics.account_balance * MAX_RISK_PER_TRADE_PCT
  let remaining_daily_budget := max (metrics.max_daily_loss - |metrics.daily_pnl|) 0
  let actual_max_risk := min max_risk remaining_daily_budget
  let risk_per_unit := |signal.entry_price - signal.stop_loss|
  if risk_per_unit > 0 then
    let raw_qty := actual_max_risk / risk_per_unit
    let steps : ℤ := ⌊raw_qty / p.qty_step⌋
    (steps : ℚ) * p.qty_step
  else
    0

/-- Constant `MIN_ORDER_NOTIONAL = 100.0` from `src/position_manager.rs:24`. -/
def MIN_ORDER_NOTIONAL : ℚ := 100

/-- Failure reasons of `validate_trade`; the source returns formatted `String`s,
abstracted here one constructor per `return Err(...)` site. -/
inductive ValidationError where
  | sizeZero
  | notionalBelowMin
  | tradingDisabled
  | equityBelowFloor
  | riskExceedsMax
  | dailyBudgetExhausted
  | slNotBelowEntry
  | tpNotAboveEntry
  | slNotAboveEntry
  | tpNotBelowEntry
deriving DecidableEq

/-- `validate_trade` from `src/position_manager.rs:26-97`: checks in source
order — size, notional, trading switch, equity floor, per-trade risk, daily
budget, then SL/TP direction against the FVG type. -/
def validate_trade (signal : TradeSignal) (metrics : RiskMetrics) :
    Except ValidationError Unit :=
  if signal.position_size ≤ 0 then .error .sizeZero
  else if signal.position_size * signal.entry_price < MIN_ORDER_NOTIONAL then
    .error .notionalBelowMin
  else if metrics.trading_enabled = false then .error .tradingDisabled
  else if metrics.current_equity < metrics.account_balance * (90 / 100) then
    .error .equityBelowFloor
  else if signal.risk_amount > metrics.max_risk_per_trade then .error .riskExceedsMax
  else if signal.risk_amount > metrics.max_daily_loss - |metrics.daily_pnl| then
    .error .dailyBudgetExhausted
  else
    match signal.fvg_zone.fvg_type with
    | .bullish =>
        if signal.stop_loss ≥ signal.entry_price then .error .slNotBelowEntry
        else if signal.take_profit_1 ≤ signal.entry_price then .error .tpNotAboveEntry
        else .ok ()
    | .bearish =>
        if signal.stop_loss ≤ signal.entry_price then .error .slNotAboveEntry
        else if signal.take_profit_1 ≥ signal.entry_price then .error .tpNotBelowEntry
        else .ok ()

/-- `update_position_pnl` from `src/position_manager.rs:155-162`: entry is the
actual fill when known; `unrealized_pnl := (mark − entry) × size` (note: no
side factor appears in the source); `max_favorable_excursion` becomes the
running maximum of the mark price. -/
def update_position_pnl (position : PositionData) (current_price : ℚ) : PositionData :=
  let entry := position.actual_entry.getD position.entry_price
  let position := { position with unrealized_pnl := (current_price - entry) * position.position_size }
  if current_price > position.max_favorable_excursion then
    { position with max_favorable_excursion := current_price }
  else
    position

/-- Unrealized-PnL formula stated by the spec (§4.E `update_pnl`):
`(mark − entry) × size × (Buy?+1:−1)`.  This definition follows the spec words
and exists only to be compared with `update_position_pnl` above. -/
def unrealized_pnl_spec (side : String) (position : PositionData) (mark : ℚ) : ℚ :=
  let entry := position.actual_entry.getD position.entry_price
  (mark - entry) * position.position_size * (if side = "Buy" then 1 else -1)

/-! ## fvg_detector.rs -/

/-- Constant `VOL_AVG_PERIOD = 20` from `src/fvg_detector.rs`. -/
def VOL_AVG_PERIOD : ℕ := 20

/-- Constant `BB_PERIOD = 20` from `src/fvg_detector.rs`. -/
def BB_PERIOD : ℕ := 20

/-- Constant `BB_MULT = 2.0` from `src/fvg_detector.rs`. -/
def BB_MULT : ℚ := 2

/-- Bollinger-band triple from `src/fvg_detector.rs`. -/
structure BollingerBands where
  upper : ℚ
  middle : ℚ
  lower : ℚ
deriving DecidableEq

/-- `avg_volume` from `src/fvg_detector.rs:321-325`: mean volume of the last
`min(len, period)` candles, `0` when the slice is empty. -/
def avg_volume (candles : List Candle) (period : ℕ) : ℚ :=
  let n := min candles.length period
  if n = 0 then 0
  else ((candles.reverse.take n).map (·.volume)).sum / (n : ℚ)

/-- `bollinger_bands` from `src/fvg_detector.rs:18-29`.  The `f64::sqrt` of the
variance, irrelevant to every claim under verification (only `middle` is read
by the detectors), is abstracted as the parameter `sq`. -/
def bollinger_bands (sq : ℚ → ℚ) (candles : List Candle) (period : ℕ) :
    Option BollingerBands :=
  if candles.length < period then none
  else
    let closes := (candles.reverse.take period).map (·.close)
    let middle := closes.sum / (period : ℚ)
    let variance := (closes.map (fun c => (c - middle) ^ 2)).sum / (period : ℚ)
    let std_dev := sq variance
    some ⟨middle + BB_MULT * std_dev, middle, middle - BB_MULT * std_dev⟩

/-- Body of the `detect_bullish_fvg` search loop at one index `j`
(`src/fvg_detector.rs:206-242`): gap, impulse and confirmation conditions;
`some zone` models the early `return`. -/
def bullish_fvg_at (candles : List Candle) (p : SymbolParams) (current : Candle)
    (avg_vol bb_middle : ℚ) (j : ℕ) : Option FVGZone :=
  let c1 := candles.getD j cdef
  let c2 := candles.getD (j + 1) cdef
  let c3 := candles.getD (j + 2) cdef
  let imp_vol := avg_volume (candles.take (j + 2)) VOL_AVG_PERIOD
  if c3.low > c1.high then
    let gap := c3.low - c1.high
    if gap > c2.close * p.min_gap_pct ∧ c2.close > c2.open_ ∧
        c2.volume > imp_vol * p.min_vol_mult then
      let zone_low := c1.high
      let zone_high := c3.low
      let retested := (candles.drop (j + 3)).any
        (fun c => decide (c.low ≤ zone_high + (zone_high - zone_low) * (1 / 2)))
      if retested = true ∧ current.close > zone_high ∧ current.close > bb_middle ∧
          current.volume > avg_vol * p.min_vol_mult then
        some ⟨.bullish, zone_high, zone_low, c2.high, c2.low, c2.timestamp, false⟩
      else none
    else none
  else none

/-- `detect_bullish_fvg` from `src/fvg_detector.rs:195-245`: scans
`j ∈ [n − lookback − 2, n − 2)` (saturating) and returns the first confirmed
bullish zone; with fewer than 20 candles `bb_middle` falls back to `0.0`. -/
def detect_bullish_fvg (sq : ℚ → ℚ) (candles : List Candle) (p : SymbolParams) :
    Option FVGZone :=
  let n := candles.length
  if n < p.fvg_lookback + 3 then none
  else
    let current := candles.getD (n - 1) cdef
    let avg_vol := avg_volume candles VOL_AVG_PERIOD
    let search_start := n - (p.fvg_lookback + 2)
    let bb_middle := ((bollinger_bands sq candles BB_PERIOD).map (·.middle)).getD 0
    (List.range' search_start (n - 2 - search_start)).findSome?
      (bullish_fvg_at candles p current avg_vol bb_middle)

/-- Body of the `detect_bearish_fvg` search loop at one index `j`
(`src/fvg_detector.rs:261-296`). -/
def bearish_fvg_at (candles : List Candle) (p : SymbolParams) (current : Candle)
    (avg_vol : ℚ) (bb_middle : Option ℚ) (j : ℕ) : Option FVGZone :=
  let c1 := candles.getD j cdef
  let c2 := candles.getD (j + 1) cdef
  let c3 := candles.getD (j + 2) cdef
  let imp_vol := avg_volume (candles.take (j + 2)) VOL_AVG_PERIOD
  if c1.low > c3.high then
    let gap := c1.low - c3.high
    if gap > c2.close * p.min_gap_pct ∧ c2.close < c2.open_ ∧
        c2.volume > imp_vol * p.min_vol_mult then
      let zone_low := c3.high
      let zone_high := c1.low
      let retested := (candles.drop (j + 3)).any
        (fun c => decide (c.high ≥ zone_low - (zone_high - zone_low) * (1 / 2)))
      if retested = true ∧ current.close < zone_low ∧
          (∀ m ∈ bb_middle, current.close < m) ∧
          current.volume > avg_vol * p.min_vol_mult then
        some ⟨.bearish, zone_high, zone_low, c2.high, c2.low, c2.timestamp, false⟩
      else none
    else none
  else none

/-- `detect_bearish_fvg` from `src/fvg_detector.rs:250-299`.  The source
fallback `unwrap_or(f64::MAX)` for a missing Bollinger middle — under which
`close < bb_middle` holds for every representable close — is modelled by
making the comparison vacuous when the bands are absent. -/
def detect_bearish_fvg (sq : ℚ → ℚ) (candles : List Candle) (p : SymbolParams) :
    Option FVGZone :=
  let n := candles.length
  if n < p.fvg_lookback + 3 then none
  else
    let current := candles.getD (n - 1) cdef
    let avg_vol := avg_volume candles VOL_AVG_PERIOD
    let search_start := n - (p.fvg_lookback + 2)
    let bb_middle := (bollinger_bands sq candles BB_PERIOD).map (·.middle)
    (List.range' search_start (n - 2 - search_start)).findSome?
      (bearish_fvg_at candles p current avg_vol bb_middle)

/-! ## main.rs helpers -/

/-- `calculate_atr` from `src/main.rs:783-798`: arithmetic mean of the true
range over the last `period` candle pairs; `0` with fewer than `period + 1`
candles. -/
def calculate_atr (candles : List Candle) (period : ℕ) : ℚ :=
  if candles.length < period + 1 then 0
  else
    let start := candles.length - period - 1
    let tr_sum := (List.range' (start + 1) period).foldl
      (fun acc i =>
        let curr := candles.getD i cdef
        let prev := candles.getD (i - 1) cdef
        acc + max (curr.high - curr.low)
          (max |curr.high - prev.close| |curr.low - prev.close|)) 0
    tr_sum / (period : ℚ)

/-! ## bybit_api.rs -/

/-- Error taxonomy from `src/bybit_api.rs:23-31`. -/
inductive BybitError where
  | rateLimit (retry_after : ℕ)
  | transient (msg : String)
  | permanent (msg : String)
deriving DecidableEq

/-- `classify_error` from `src/bybit_api.rs:48-54`: the match arms in source
order — `(10006, _) | (_, 429)`, then `(10016, _) | (_, 500..=599)`, then the
catch-all.  The `retCode=.. msg=..` formatting of the permanent message is
abstracted to the message itself. -/
def classify_error (ret_code : ℤ) (http_status : ℕ) (msg : String) : BybitError :=
  if ret_code = 10006 ∨ http_status = 429 then .rateLimit 10
  else if ret_code = 10016 ∨ (500 ≤ http_status ∧ http_status ≤ 599) then .transient msg
  else .permanent msg

/-- Outcome of one HTTP attempt: a transport/parse failure (mapped by every
raw method to `Transient`) or a decoded exchange reply carrying `retCode`,
HTTP status, `retMsg` and the parsed success payload. -/
inductive HttpResult (α : Type) where
  | fail (msg : String)
  | reply (ret_code : ℤ) (http_status : ℕ) (msg : String) (val : α)

/-- Shared response handling of every raw method in `src/bybit_api.rs`
(e.g. `place_order_raw:172-198`): transport errors become `Transient`,
`retCode = 0` succeeds, anything else goes through `classify_error`. -/
def processResponse (r : HttpResult α) : Except BybitError α :=
  match r with
  | .fail msg => .error (.transient msg)
  | .reply ret_code http_status msg v =>
      if ret_code = 0 then .ok v else .error (classify_error ret_code http_status msg)

/-- Recursion of `with_retry` from `src/bybit_api.rs:57-87`.  `attempts` gives
the outcome of each successive attempt, `retries_left = max_retries − retries`,
`delay` is the current transient backoff.  Returns the final result together
with the list of sleep durations (seconds), in order. -/
def with_retry_go (attempts : ℕ → Except BybitError α) (attempt : ℕ) (delay : ℕ) :
    (retries_left : ℕ) → Except BybitError α × List ℕ
  | 0 =>
      match attempts attempt with
      | .ok r => (.ok r, [])
      | .error e => (.error e, [])
  | n + 1 =>
      match attempts attempt with
      | .ok r => (.ok r, [])
      | .error (.rateLimit retry_after) =>
          let rest := with_retry_go attempts (attempt + 1) delay n
          (rest.1, retry_after :: rest.2)
      | .error (.transient _) =>
          let rest := with_retry_go attempts (attempt + 1) (min (delay * 2) 60) n
          (rest.1, delay :: rest.2)
      | .error (.permanent msg) => (.error (.permanent msg), [])

/-- `with_retry` from `src/bybit_api.rs:57-87`: starts with `retries = 0` and
`delay = 1`; a `Permanent` error returns immediately, `RateLimit` sleeps
`retry_after`, `Transient` sleeps the doubling delay capped at 60 s. -/
def with_retry (attempts : ℕ → Except BybitError α) (max_retries : ℕ) :
    Except BybitError α × List ℕ :=
  with_retry_go attempts 0 1 max_retries

/-- `BybitClient::place_order` (`src/bybit_api.rs:342-359`):
`with_retry(place_order_raw, 3)`. -/
def place_order (env : ℕ → HttpResult α) : Except BybitError α × List ℕ :=
  with_retry (fun i => processResponse (env i)) 3

/-- `BybitClient::close_position` (`src/bybit_api.rs:362-377`):
`with_retry(close_position_raw, 3)`. -/
def close_position (env : ℕ → HttpResult α) : Except BybitError α × List ℕ :=
  with_retry (fun i => processResponse (env i)) 3

/-- `BybitClient::get_position` (`src/bybit_api.rs:380-388`):
`with_retry(get_position_raw, 5)`. -/
def get_position (env : ℕ → HttpResult α) : Except BybitError α × List ℕ :=
  with_retry (fun i => processResponse (env i)) 5

/-- `BybitClient::fetch_klines` (`src/bybit_api.rs:496-511`):
`with_retry(fetch_klines_raw, 3)`. -/
def fetch_klines (env : ℕ → HttpResult α) : Except BybitError α × List ℕ :=
  with_retry (fun i => processResponse (env i)) 3

/-- `BybitClient::get_all_open_positions` (`src/bybit_api.rs:422-481`): the
body issues a single signed request and classifies its response directly — it
is NOT passed through `with_retry`; the payload is the parsed symbol → info
map. -/
def get_all_open_positions (env : ℕ → HttpResult α) : Except BybitError α :=
  processResponse (env 0)

/-- Exchange position info from `src/bybit_api.rs:8-15`. -/
structure ExchangePositionInfo where
  side : String
  size : ℚ
  avg_price : ℚ
  stop_loss : ℚ
  take_profit : ℚ
  created_time : ℤ
deriving DecidableEq

/-- `BybitClient::count_open_exchange_positions` (`src/bybit_api.rs:484-492`):
the size of the fetched map on success, `0` on any error.  The fetch outcome is
passed in already parsed as an association list. -/
def count_open_exchange_positions
    (fetch : Except BybitError (List (String × ExchangePositionInfo))) : ℕ :=
  match fetch with
  | .ok m => m.length
  | .error _ => 0

/-! ## websocket_handler.rs -/

/-- Constant `BUFFER_SIZE = 50` from `src/websocket_handler.rs:13`. -/
def BUFFER_SIZE : ℕ := 50

/-- Per-candle buffer update from the message loop of `BybitWsClient::connect`
(`src/websocket_handler.rs:100-114`): skip zero timestamps, replace the tail on
an equal timestamp, otherwise push to the back and pop the front when over
`BUFFER_SIZE`.  The deque is a list with the front at the head. -/
def append_or_replace (buf : List Candle) (c : Candle) : List Candle :=
  if c.timestamp = 0 then buf
  else if buf.getLast?.map (·.timestamp) = some c.timestamp then
    buf.dropLast ++ [c]
  else
    let b := buf ++ [c]
    if BUFFER_SIZE < b.length then b.tail else b

/-- Candle buffer reached from the empty buffer by a sequence of
`append_or_replace` operations. -/
def run_buffer (cs : List Candle) : List Candle :=
  cs.foldl append_or_replace []

/-! ## main.rs — positions map -/

/-- `OpenPosition` from `src/main.rs:41-44`. -/
structure OpenPosition where
  data : PositionData
  side : String
deriving DecidableEq

/-- Local positions state: the `HashMap<String, OpenPosition>` of
`src/main.rs:84`, embedded as an association list. -/
abbrev PosMap := List (String × OpenPosition)

/-- `HashMap::insert` on the positions map: replaces the value of an existing
key, otherwise appends a new binding. -/
def insertPos (m : PosMap) (k : String) (v : OpenPosition) : PosMap :=
  if m.any (fun kv => kv.1 = k) then
    m.map (fun kv => if kv.1 = k then (k, v) else kv)
  else
    m ++ [(k, v)]

/-- `orphan_to_open_position` from `src/main.rs:724-762`: imports an exchange
position with SL/TP taken from the exchange when present, else synthesized at
±5 % / ±10 % of the average price. -/
def orphan_to_open_position (info : ExchangePositionInfo) : OpenPosition :=
  let sl := if info.stop_loss > 0 then info.stop_loss
    else if info.side = "Buy" then info.avg_price * (95 / 100)
    else info.avg_price * (105 / 100)
  let tp := if info.take_profit > 0 then info.take_profit
    else if info.side = "Buy" then info.avg_price * (110 / 100)
    else info.avg_price * (90 / 100)
  { side := info.side
    data :=
      { is_open := true
        entry_price := info.avg_price
        actual_entry := some info.avg_price
        entry_time := info.created_time
        position_size := info.size
        stop_loss := sl
        take_profit_1 := tp
        take_profit_2 := tp
        unrealized_pnl := 0
        risk_amount := 0
        max_favorable_excursion := info.avg_price
        order_id := ""
        actual_exit := none } }

/-- Body of the per-exchange-position loop of `reconcile_positions`
(`src/main.rs:696-718`): adopt the exchange size when sizes mismatch by more
than 0.001, or import the orphan position. -/
def reconcile_step (m : PosMap) (si : String × ExchangePositionInfo) : PosMap :=
  if m.any (fun kv => kv.1 = si.1) then
    m.map (fun kv =>
      if kv.1 = si.1 then
        (kv.1,
          if |kv.2.data.position_size - si.2.size| > 1 / 1000 then
            { kv.2 with data := { kv.2.data with position_size := si.2.size } }
          else kv.2)
      else kv)
  else m ++ [(si.1, orphan_to_open_position si.2)]

/-- `reconcile_positions` from `src/main.rs:670-721` (the part after a
successful fetch): drop local symbols absent from the exchange, then for every
exchange position either adopt the exchange size on a mismatch or import the
orphan.  The exchange map is given as an association list. -/
def reconcile_positions (locals : PosMap)
    (exchange : List (String × ExchangePositionInfo)) : PosMap :=
  let after_stale := locals.filter (fun kv => exchange.any (fun si => si.1 = kv.1))
  exchange.foldl reconcile_step after_stale

/-- Order-placement step of a cycle (`src/main.rs:525-607`): when pending
orders exist, clear them all if the exchange already reports at least
`MAX_OPEN_POSITIONS` open positions, then place the first
`MAX_OPEN_POSITIONS − |positions|` of them; each successful placement inserts
its position.  `succeeds` abstracts the exchange accepting the order, and each
pending entry carries the `create_position` result it would insert. -/
def place_pending_orders (positions : PosMap) (pending : List (String × OpenPosition))
    (exchange_open : ℕ) (succeeds : String → Bool) : PosMap :=
  if pending.isEmpty then positions
  else
    let pending := if MAX_OPEN_POSITIONS ≤ exchange_open then [] else pending
    let slots := MAX_OPEN_POSITIONS - positions.length
    (pending.take slots).foldl
      (fun m kv => if succeeds kv.1 then insertPos m kv.1 kv.2 else m) positions

/-! ## Helper lemmas -/

/-- Unfolding lemma for `calculate_position_size`. -/
theorem calculate_position_size_eq (signal : TradeSignal) (metrics : RiskMetrics)
    (p : SymbolParams) :
    calculate_position_size signal metrics p =
      if |signal.entry_price - signal.stop_loss| > 0 then
        ((⌊min (metrics.account_balance * MAX_RISK_PER_TRADE_PCT)
            (max (metrics.max_daily_loss - |metrics.daily_pnl|) 0) /
            |signal.entry_price - signal.stop_loss| / p.qty_step⌋ : ℤ) : ℚ) * p.qty_step
      else 0 := rfl

/-! ## Claim theorems -/

/-- Concrete Sell position used to exhibit the missing side sign in
`update_position_pnl`: entry 100, size 1, no recorded fill. -/
def sellPosExample : PositionData :=
  { is_open := true
    entry_price := 100
    entry_time := 0
    position_size := 1
    stop_loss := 110
    take_profit_1 := 90
    take_profit_2 := 85
    unrealized_pnl := 0
    risk_amount := 10
    max_favorable_excursion := 100
    order_id := ""
    actual_entry := none
    actual_exit := none }

/-- Claim C1: the spec says `update_pnl` recomputes
`unrealized_pnl = (mark − entry) × size × (Buy?+1:−1)`.  The source
(`src/position_manager.rs:155-162`) computes `(mark − entry) × size` with no
side factor, so for a Sell position at entry 100 and mark 90 the code stores
−10 where the specified formula gives +10.  The rest of `main.rs`
(`close_position_local`, the manual-close exit derivation at
`src/main.rs:227-239`) does apply the Sell multiplier, so the omission is a
slip in the code, not the spec. -/
theorem C1_update_pnl_missing_side_sign :
    (update_position_pnl sellPosExample 90).unrealized_pnl = -10 ∧
    unrealized_pnl_spec "Sell" sellPosExample 90 = 10 ∧
    (update_position_pnl sellPosExample 90).unrealized_pnl ≠
      unrealized_pnl_spec "Sell" sellPosExample 90 := by
  have h1 : (update_position_pnl sellPosExample 90).unrealized_pnl = -10 := by
    norm_num [update_position_pnl, sellPosExample]
  have h2 : unrealized_pnl_spec "Sell" sellPosExample 90 = 10 := by
    rw [unrealized_pnl_spec]
    norm_num [sellPosExample]
    decide
  exact ⟨h1, h2, by rw [h1, h2]; norm_num⟩

/-- Claim C3: `calculate_position_size` returns
`floor(min(balance × pct, max(max_daily_loss − |daily_pnl|, 0)) / |entry − stop|
/ qty_step) × qty_step`, returns 0 when entry = stop, always yields an integer
multiple of `qty_step`, and the implied risk `size × |entry − stop|` never
exceeds the per-trade budget `balance × MAX_RISK_PER_TRADE_PCT`.  Stated for a
positive lot step and non-negative balance (both always true in the
configuration). -/
theorem C3_position_size_formula (signal : TradeSignal) (metrics : RiskMetrics)
    (p : SymbolParams) (hq : 0 < p.qty_step) (hb : 0 ≤ metrics.account_balance) :
    (signal.entry_price ≠ signal.stop_loss →
      calculate_position_size signal metrics p =
        ((⌊min (metrics.account_balance * MAX_RISK_PER_TRADE_PCT)
            (max (metrics.max_daily_loss - |metrics.daily_pnl|) 0) /
            |signal.entry_price - signal.stop_loss| / p.qty_step⌋ : ℤ) : ℚ) * p.qty_step) ∧
    (signal.entry_price = signal.stop_loss →
      calculate_position_size signal metrics p = 0) ∧
    (∃ k : ℤ, calculate_position_size signal metrics p = (k : ℚ) * p.qty_step) ∧
    calculate_position_size signal metrics p * |signal.entry_price - signal.stop_loss| ≤
      metrics.account_balance * MAX_RISK_PER_TRADE_PCT := by
  have hbudget : 0 ≤ metrics.account_balance * MAX_RISK_PER_TRADE_PCT := by
    have : (0 : ℚ) ≤ MAX_RISK_PER_TRADE_PCT := by norm_num [MAX_RISK_PER_TRADE_PCT]
    exact mul_nonneg hb this
  rcases eq_or_ne signal.entry_price signal.stop_loss with he | he
  · have hrpu : |signal.entry_price - signal.stop_loss| = 0 := by
      rw [abs_eq_zero, sub_eq_zero]; exact he
    have hz : calculate_position_size signal metrics p = 0 := by
      rw [calculate_position_size_eq, hrpu, if_neg (lt_irrefl 0)]
    refine ⟨fun h => absurd he h, fun _ => hz, ⟨0, by rw [hz]; ring⟩, ?_⟩
    rw [hz, zero_mul]; exact hbudget
  · have hrpu : 0 < |signal.entry_price - signal.stop_loss| :=
      abs_pos.mpr (sub_ne_zero.mpr he)
    set A := min (metrics.account_balance * MAX_RISK_PER_TRADE_PCT)
      (max (metrics.max_daily_loss - |metrics.daily_pnl|) 0) with hA
    have hsz : calculate_position_size signal metrics p =
        ((⌊A / |signal.entry_price - signal.stop_loss| / p.qty_step⌋ : ℤ) : ℚ) *
          p.qty_step := by
      rw [calculate_position_size_eq, if_pos hrpu]
    refine ⟨fun _ => hsz, fun h => absurd h he, ⟨_, hsz⟩, ?_⟩
    rw [hsz]
    set raw := A / |signal.entry_price - signal.stop_loss| with hraw
    have hfl : ((⌊raw / p.qty_step⌋ : ℤ) : ℚ) * p.qty_step ≤ raw := by
      have h1 : ((⌊raw / p.qty_step⌋ : ℤ) : ℚ) ≤ raw / p.qty_step := Int.floor_le _
      calc ((⌊raw / p.qty_step⌋ : ℤ) : ℚ) * p.qty_step
          ≤ raw / p.qty_step * p.qty_step := by
            exact mul_le_mul_of_nonneg_right h1 hq.le
        _ = raw := div_mul_cancel₀ _ hq.ne'
    have h2 : ((⌊raw / p.qty_step⌋ : ℤ) : ℚ) * p.qty_step *
        |signal.entry_price - signal.stop_loss| ≤
        raw * |signal.entry_price - signal.stop_loss| :=
      mul_le_mul_of_nonneg_right hfl hrpu.le
    have h3 : raw * |signal.entry_price - signal.stop_loss| = A :=
      div_mul_cancel₀ _ hrpu.ne'
    have h4 : A ≤ metrics.account_balance * MAX_RISK_PER_TRADE_PCT := min_le_left _ _
    calc ((⌊raw / p.qty_step⌋ : ℤ) : ℚ) * p.qty_step *
        |signal.entry_price - signal.stop_loss|
        ≤ raw * |signal.entry_price - signal.stop_loss| := h2
      _ = A := h3
      _ ≤ metrics.account_balance * MAX_RISK_PER_TRADE_PCT := h4

/-- Witness for C3 at BTCUSDT parameters: balance 10000, daily budget 500,
entry 100, stop 95, qty_step 1/1000. -/
theorem C3_position_size_formula_witness :
    (0 : ℚ) < (1 : ℚ) / 1000 ∧ (0 : ℚ) ≤ (10000 : ℚ) ∧
    calculate_position_size
      { signal_type := .buyBreakout
        fvg_zone := ⟨.bullish, 99, 98, 99, 98, 0, false⟩
        entry_price := 100, stop_loss := 95, take_profit_1 := 110
        take_profit_2 := 120, position_size := 0, risk_amount := 0
        risk_reward := 0, timestamp := 0 }
      { account_balance := 10000, current_equity := 10000, daily_pnl := 0
        max_daily_loss := 500, drawdown_percentage := 0, max_risk_per_trade := 100
        trading_enabled := true, trades_today := 0, wins_today := 0 }
      ⟨1/1000, 3/2, 12, 1/2, 5, 7, 1/1000⟩ *
      |(100 : ℚ) - 95| ≤ (10000 : ℚ) * MAX_RISK_PER_TRADE_PCT := by
  refine ⟨by norm_num, by norm_num, ?_⟩
  exact (C3_position_size_formula
    { signal_type := .buyBreakout
      fvg_zone := ⟨.bullish, 99, 98, 99, 98, 0, false⟩
      entry_price := 100, stop_loss := 95, take_profit_1 := 110
      take_profit_2 := 120, position_size := 0, risk_amount := 0
      risk_reward := 0, timestamp := 0 }
    { account_balance := 10000, current_equity := 10000, daily_pnl := 0
      max_daily_loss := 500, drawdown_percentage := 0, max_risk_per_trade := 100
      trading_enabled := true, trades_today := 0, wins_today := 0 }
    ⟨1/1000, 3/2, 12, 1/2, 5, 7, 1/1000⟩ (by norm_num) (by norm_num)).2.2.2

/-- Claim C4: every trade signal accepted by `validate_trade` has positive
size, notional at least 100 quote units, and the directional ordering
`stop_loss < entry < take_profit_1` for a bullish (Buy) signal and
`take_profit_1 < entry < stop_loss` for a bearish (Sell) signal. -/
theorem C4_validate_trade_ordering (signal : TradeSignal) (metrics : RiskMetrics)
    (h : validate_trade signal metrics = .ok ()) :
    0 < signal.position_size ∧
    MIN_ORDER_NOTIONAL ≤ signal.position_size * signal.entry_price ∧
    (signal.fvg_zone.fvg_type = .bullish →
      signal.stop_loss < signal.entry_price ∧
      signal.entry_price < signal.take_profit_1) ∧
    (signal.fvg_zone.fvg_type = .bearish →
      signal.take_profit_1 < signal.entry_price ∧
      signal.entry_price < signal.stop_loss) := by
  rcases hty : signal.fvg_zone.fvg_type with _ | _ <;>
    rw [validate_trade, hty] at h <;>
    split_ifs at h with h1 h2 h3 h4 h5 h6 h7 h8 h9 h10 <;>
    simp only [reduceCtorEq] at h
  all_goals
    refine ⟨not_le.mp h1, not_lt.mp h2, ?_, ?_⟩ <;> intro hb <;>
      first
        | exact FVGType.noConfusion hb
        | exact ⟨not_le.mp (by assumption), not_le.mp (by assumption)⟩

/-- Witness for C4: a concrete bullish signal with size 2, entry 100, stop 95,
TP 110 passes validation and satisfies the orderings. -/
theorem C4_validate_trade_ordering_witness :
    validate_trade
      { signal_type := .buyBreakout
        fvg_zone := ⟨.bullish, 99, 98, 99, 98, 0, false⟩
        entry_price := 100, stop_loss := 95, take_profit_1 := 110
        take_profit_2 := 120, position_size := 2, risk_amount := 10
        risk_reward := 2, timestamp := 0 }
      { account_balance := 10000, current_equity := 10000, daily_pnl := 0
        max_daily_loss := 500, drawdown_percentage := 0, max_risk_per_trade := 100
        trading_enabled := true, trades_today := 0, wins_today := 0 } = .ok () ∧
    (0 : ℚ) < 2 ∧ (95 : ℚ) < 100 ∧ (100 : ℚ) < 110 := by
  have hok : validate_trade
      { signal_type := .buyBreakout
        fvg_zone := ⟨.bullish, 99, 98, 99, 98, 0, false⟩
        entry_price := 100, stop_loss := 95, take_profit_1 := 110
        take_profit_2 := 120, position_size := 2, risk_amount := 10
        risk_reward := 2, timestamp := 0 }
      { account_balance := 10000, current_equity := 10000, daily_pnl := 0
        max_daily_loss := 500, drawdown_percentage := 0, max_risk_per_trade := 100
        trading_enabled := true, trades_today := 0, wins_today := 0 } = .ok () := by
    rw [validate_trade]
    norm_num [MIN_ORDER_NOTIONAL]
  have hc := C4_validate_trade_ordering _ _ hok
  exact ⟨hok, hc.1, (hc.2.2.1 rfl).1, (hc.2.2.1 rfl).2⟩

/-- Claim C8: `classify_error` maps the exchange rate-limit code 10006 or HTTP
429 to `RateLimit` with `retry_after = 10`; the transient-overload code 10016
or HTTP 5xx (when not rate-limited) to `Transient` with the message; and any
other non-zero return to `Permanent` with the message. -/
theorem C8_classify_error_taxonomy (ret_code : ℤ) (http_status : ℕ) (msg : String) :
    ((ret_code = 10006 ∨ http_status = 429) →
      classify_error ret_code http_status msg = .rateLimit 10) ∧
    (ret_code ≠ 10006 → http_status ≠ 429 →
      (ret_code = 10016 ∨ (500 ≤ http_status ∧ http_status ≤ 599)) →
      classify_error ret_code http_status msg = .transient msg) ∧
    (ret_code ≠ 0 → ret_code ≠ 10006 → http_status ≠ 429 → ret_code ≠ 10016 →
      ¬(500 ≤ http_status ∧ http_status ≤ 599) →
      classify_error ret_code http_status msg = .permanent msg) := by
  refine ⟨fun h => ?_, fun h1 h2 h3 => ?_, fun _ h1 h2 h3 h4 => ?_⟩
  · rw [classify_error, if_pos h]
  · rw [classify_error, if_neg (by tauto), if_pos h3]
  · rw [classify_error, if_neg (by tauto), if_neg (by tauto)]

/-- Witness for C8: the three classes at concrete inputs. -/
theorem C8_classify_error_taxonomy_witness :
    classify_error 10006 200 "m" = .rateLimit 10 ∧
    classify_error 10016 200 "m" = .transient "m" ∧
    classify_error 33004 200 "m" = .permanent "m" :=
  ⟨(C8_classify_error_taxonomy 10006 200 "m").1 (Or.inl rfl),
   (C8_classify_error_taxonomy 10016 200 "m").2.1 (by decide) (by decide) (Or.inl rfl),
   (C8_classify_error_taxonomy 33004 200 "m").2.2 (by decide) (by decide) (by decide)
     (by decide) (by decide)⟩

/-- Claim C9: each indicator returns its defined no-result value on a short
slice — ATR returns 0 with fewer than `period + 1` candles, Bollinger bands
return `none` with fewer than `period` candles, and both FVG detectors return
`none` when `lookback + 3` exceeds the candle count. -/
theorem C9_short_input_no_result (candles : List Candle) (period : ℕ)
    (p : SymbolParams) (sq : ℚ → ℚ) :
    (candles.length < period + 1 → calculate_atr candles period = 0) ∧
    (candles.length < period → bollinger_bands sq candles period = none) ∧
    (candles.length < p.fvg_lookback + 3 →
      detect_bullish_fvg sq candles p = none ∧
      detect_bearish_fvg sq candles p = none) := by
  refine ⟨fun h => ?_, fun h => ?_, fun h => ⟨?_, ?_⟩⟩
  · rw [calculate_atr, if_pos h]
  · rw [bollinger_bands, if_pos h]
  · rw [detect_bullish_fvg, if_pos h]
  · rw [detect_bearish_fvg, if_pos h]

/-- Witness for C9 at concrete short inputs (one candle, ATR period 14,
Bollinger period 20, BTCUSDT parameters with lookback 12). -/
theorem C9_short_input_no_result_witness :
    calculate_atr [cdef] 14 = 0 ∧
    bollinger_bands id [cdef] 20 = none ∧
    detect_bullish_fvg id [cdef] ⟨1/1000, 3/2, 12, 1/2, 5, 7, 1/1000⟩ = none ∧
    detect_bearish_fvg id [cdef] ⟨1/1000, 3/2, 12, 1/2, 5, 7, 1/1000⟩ = none := by
  have hc := C9_short_input_no_result [cdef] 14 ⟨1/1000, 3/2, 12, 1/2, 5, 7, 1/1000⟩ id
  have hb := C9_short_input_no_result [cdef] 20 ⟨1/1000, 3/2, 12, 1/2, 5, 7, 1/1000⟩ id
  exact ⟨hc.1 (by decide), hb.2.1 (by decide),
    (hc.2.2 (by decide)).1, (hc.2.2 (by decide)).2⟩

/-- Claim C10: `count_open_exchange_positions` returns 0 whenever the fetch of
all open positions fails, so the exchange-side cap guard
(`exchange_open ≥ MAX_OPEN_POSITIONS` at `src/main.rs:525-537`) cannot fire on
a failed fetch: it blocks only when the fetch succeeded with at least
`MAX_OPEN_POSITIONS` open positions. -/
theorem C10_failed_fetch_counts_zero
    (fetch : Except BybitError (List (String × ExchangePositionInfo))) :
    (∀ e, fetch = .error e →
      count_open_exchange_positions fetch = 0 ∧
      ¬ MAX_OPEN_POSITIONS ≤ count_open_exchange_positions fetch) ∧
    (MAX_OPEN_POSITIONS ≤ count_open_exchange_positions fetch →
      ∃ m, fetch = .ok m ∧ MAX_OPEN_POSITIONS ≤ m.length) := by
  constructor
  · rintro e rfl
    refine ⟨rfl, ?_⟩
    intro hc
    simp [count_open_exchange_positions, MAX_OPEN_POSITIONS] at hc
  · intro h
    cases fetch with
    | ok m => exact ⟨m, rfl, h⟩
    | error e =>
        simp [count_open_exchange_positions, MAX_OPEN_POSITIONS] at h

/-- Witness for C10: a concrete transient failure counts as zero open
positions and does not trip the cap guard. -/
theorem C10_failed_fetch_counts_zero_witness :
    count_open_exchange_positions (.error (.transient "HTTP error")) = 0 ∧
    ¬ MAX_OPEN_POSITIONS ≤
      count_open_exchange_positions (.error (.transient "HTTP error")) :=
  (C10_failed_fetch_counts_zero (.error (.transient "HTTP error"))).1
    (.transient "HTTP error") rfl

/-- Claim C7: every zone returned by `detect_bullish_fvg` has
`zone_low = c₁.high`, `zone_high = c₃.low` for some 3-candle window inside the
slice, `zone_low < zone_high`, and a green impulse candle
(`c₂.close > c₂.open`); symmetrically every `detect_bearish_fvg` zone has
`zone_low = c₃.high`, `zone_high = c₁.low`, `zone_low < zone_high`, and a red
impulse candle. -/
theorem C7_fvg_zone_invariants (sq : ℚ → ℚ) (candles : List Candle)
    (p : SymbolParams) :
    (∀ z, detect_bullish_fvg sq candles p = some z →
      z.zone_low < z.zone_high ∧
      ∃ j, j + 2 < candles.length ∧
        z.zone_low = (candles.getD j cdef).high ∧
        z.zone_high = (candles.getD (j + 2) cdef).low ∧
        (candles.getD (j + 1) cdef).close > (candles.getD (j + 1) cdef).open_) ∧
    (∀ z, detect_bearish_fvg sq candles p = some z →
      z.zone_low < z.zone_high ∧
      ∃ j, j + 2 < candles.length ∧
        z.zone_low = (candles.getD (j + 2) cdef).high ∧
        z.zone_high = (candles.getD j cdef).low ∧
        (candles.getD (j + 1) cdef).close < (candles.getD (j + 1) cdef).open_) := by
  constructor
  · intro z h
    rw [detect_bullish_fvg] at h
    split_ifs at h with hn
    obtain ⟨j, hjmem, hj⟩ := List.exists_of_findSome?_eq_some h
    have hjlt : j + 2 < candles.length := by
      rw [List.mem_range'_1] at hjmem
      omega
    rw [bullish_fvg_at] at hj
    dsimp only at hj
    split_ifs at hj with hgap hcnd hcnf
    injection hj with hz
    subst hz
    exact ⟨hgap, j, hjlt, rfl, rfl, hcnd.2.1⟩
  · intro z h
    rw [detect_bearish_fvg] at h
    split_ifs at h with hn
    obtain ⟨j, hjmem, hj⟩ := List.exists_of_findSome?_eq_some h
    have hjlt : j + 2 < candles.length := by
      rw [List.mem_range'_1] at hjmem
      omega
    rw [bearish_fvg_at] at hj
    dsimp only at hj
    split_ifs at hj with hgap hcnd hcnf
    injection hj with hz
    subst hz
    exact ⟨hgap, j, hjlt, rfl, rfl, hcnd.2.1⟩

/-- Symbol parameters used by the C7 witness: tight gap threshold, volume
multiplier 1, lookback 2. -/
def pWitness : SymbolParams := ⟨1/1000, 1, 2, 1/2, 5, 7, 1/1000⟩

/-- Five 15-minute candles forming a confirmed bullish FVG: `c₁.high = 100`,
green impulse `c₂`, `c₃.low = 103`, retest and breakout on the last candle. -/
def bullWitnessCandles : List Candle :=
  [⟨1, 100, 100, 100, 100, 10⟩,
   ⟨2, 100, 100, 99, 100, 10⟩,
   ⟨3, 100, 104, 100, 104, 100⟩,
   ⟨4, 104, 105, 103, 104, 10⟩,
   ⟨5, 104, 106, 104, 105, 200⟩]

/-- Five candles forming a confirmed bearish FVG: `c₁.low = 100`, red impulse
`c₂`, `c₃.high = 97`, retest and breakdown on the last candle. -/
def bearWitnessCandles : List Candle :=
  [⟨1, 100, 100, 100, 100, 10⟩,
   ⟨2, 100, 101, 100, 100, 10⟩,
   ⟨3, 100, 100, 96, 96, 100⟩,
   ⟨4, 96, 97, 95, 96, 10⟩,
   ⟨5, 96, 96, 94, 95, 200⟩]

/-- Witness for C7: both detectors fire on the concrete slices above and the
returned zones satisfy the instantiated invariants. -/
theorem C7_fvg_zone_invariants_witness :
    (detect_bullish_fvg (fun _ => 0) bullWitnessCandles pWitness =
        some ⟨.bullish, 103, 100, 104, 100, 3, false⟩ ∧
      (FVGZone.mk .bullish 103 100 104 100 3 false).zone_low <
        (FVGZone.mk .bullish 103 100 104 100 3 false).zone_high) ∧
    (detect_bearish_fvg (fun _ => 0) bearWitnessCandles pWitness =
        some ⟨.bearish, 100, 97, 100, 96, 3, false⟩ ∧
      (FVGZone.mk .bearish 100 97 100 96 3 false).zone_low <
        (FVGZone.mk .bearish 100 97 100 96 3 false).zone_high) := by
  have hb : detect_bullish_fvg (fun _ => 0) bullWitnessCandles pWitness =
      some ⟨.bullish, 103, 100, 104, 100, 3, false⟩ := by
    norm_num [detect_bullish_fvg, bullish_fvg_at, avg_volume, bollinger_bands,
      VOL_AVG_PERIOD, BB_PERIOD, cdef, pWitness, bullWitnessCandles,
      List.range', List.findSome?]
  have hs : detect_bearish_fvg (fun _ => 0) bearWitnessCandles pWitness =
      some ⟨.bearish, 100, 97, 100, 96, 3, false⟩ := by
    norm_num [detect_bearish_fvg, bearish_fvg_at, avg_volume, bollinger_bands,
      VOL_AVG_PERIOD, BB_PERIOD, cdef, pWitness, bearWitnessCandles,
      List.range', List.findSome?, Option.mem_def]
    rw [if_pos]
    exact fun m hm => Option.noConfusion hm
  exact ⟨⟨hb, ((C7_fvg_zone_invariants (fun _ => 0) bullWitnessCandles pWitness).1 _ hb).1⟩,
    ⟨hs, ((C7_fvg_zone_invariants (fun _ => 0) bearWitnessCandles pWitness).2 _ hs).1⟩⟩

/-- One `append_or_replace` step keeps the buffer within `BUFFER_SIZE`. -/
theorem append_or_replace_length (buf : List Candle) (c : Candle)
    (h : buf.length ≤ BUFFER_SIZE) :
    (append_or_replace buf c).length ≤ BUFFER_SIZE := by
  rw [append_or_replace]
  dsimp only
  rw [BUFFER_SIZE] at h ⊢
  split_ifs with h0 hrep hover
  · exact h
  · simp only [List.length_append, List.length_dropLast, List.length_cons,
      List.length_nil]
    omega
  · simp only [List.length_tail, List.length_append, List.length_cons,
      List.length_nil]
    omega
  · simp only [BUFFER_SIZE, List.length_append, List.length_cons,
      List.length_nil] at hover ⊢
    omega

/-- Folding `append_or_replace` keeps the buffer within `BUFFER_SIZE`. -/
theorem foldl_append_or_replace_length (cs : List Candle) (buf : List Candle)
    (h : buf.length ≤ BUFFER_SIZE) :
    (cs.foldl append_or_replace buf).length ≤ BUFFER_SIZE := by
  induction cs generalizing buf with
  | nil => exact h
  | cons c cs ih => exact ih _ (append_or_replace_length buf c h)

/-- One `append_or_replace` step with an incoming timestamp at least every
buffered one preserves tail-maximality, and every resulting element stays
below the incoming timestamp. -/
theorem append_or_replace_tail_max (buf : List Candle) (c : Candle)
    (hmax : ∀ x ∈ buf, ∀ l ∈ buf.getLast?, x.timestamp ≤ l.timestamp)
    (hub : ∀ x ∈ buf, x.timestamp ≤ c.timestamp) :
    (∀ x ∈ append_or_replace buf c, ∀ l ∈ (append_or_replace buf c).getLast?,
      x.timestamp ≤ l.timestamp) ∧
    (∀ x ∈ append_or_replace buf c, x.timestamp ≤ c.timestamp) := by
  rw [append_or_replace]
  dsimp only
  split_ifs with h0 hrep hover
  · exact ⟨hmax, hub⟩
  · constructor
    · intro x hx l hl
      rw [List.getLast?_concat, Option.mem_some_iff] at hl
      subst hl
      rcases List.mem_append.mp hx with hx | hx
      · exact hub x (List.dropLast_subset buf hx)
      · rw [List.mem_singleton] at hx
        subst hx
        exact le_refl _
    · intro x hx
      rcases List.mem_append.mp hx with hx | hx
      · exact hub x (List.dropLast_subset buf hx)
      · rw [List.mem_singleton] at hx
        subst hx
        exact le_refl _
  · have hne : buf ≠ [] := by
      intro hnil
      subst hnil
      simp [BUFFER_SIZE] at hover
    obtain ⟨a, as, rfl⟩ := List.exists_cons_of_ne_nil hne
    simp only [List.cons_append, List.tail_cons]
    constructor
    · intro x hx l hl
      rw [List.getLast?_concat, Option.mem_some_iff] at hl
      subst hl
      rcases List.mem_append.mp hx with hx | hx
      · exact hub x (List.mem_cons_of_mem a hx)
      · rw [List.mem_singleton] at hx
        subst hx
        exact le_refl _
    · intro x hx
      rcases List.mem_append.mp hx with hx | hx
      · exact hub x (List.mem_cons_of_mem a hx)
      · rw [List.mem_singleton] at hx
        subst hx
        exact le_refl _
  · constructor
    · intro x hx l hl
      rw [List.getLast?_concat, Option.mem_some_iff] at hl
      subst hl
      rcases List.mem_append.mp hx with hx | hx
      · exact hub x hx
      · rw [List.mem_singleton] at hx
        subst hx
        exact le_refl _
    · intro x hx
      rcases List.mem_append.mp hx with hx | hx
      · exact hub x hx
      · rw [List.mem_singleton] at hx
        subst hx
        exact le_refl _

/-- Folding `append_or_replace` over a timestamp-sorted input preserves
tail-maximality. -/
theorem foldl_append_or_replace_tail_max (cs : List Candle) (buf : List Candle)
    (hs : (cs.map Candle.timestamp).Sorted (· ≤ ·))
    (hmax : ∀ x ∈ buf, ∀ l ∈ buf.getLast?, x.timestamp ≤ l.timestamp)
    (hub : ∀ x ∈ buf, ∀ c ∈ cs, x.timestamp ≤ c.timestamp) :
    ∀ x ∈ cs.foldl append_or_replace buf,
      ∀ l ∈ (cs.foldl append_or_replace buf).getLast?,
        x.timestamp ≤ l.timestamp := by
  induction cs generalizing buf with
  | nil => exact hmax
  | cons c cs ih =>
    simp only [List.map_cons, List.sorted_cons] at hs
    obtain ⟨hc, hs2⟩ := hs
    simp only [List.foldl_cons]
    have hstep := append_or_replace_tail_max buf c hmax
      (fun x hx => hub x hx c (List.mem_cons_self c cs))
    refine ih _ hs2 hstep.1 ?_
    intro x hx c2 hc2
    exact le_trans (hstep.2 x hx)
      (hc _ (List.mem_map_of_mem Candle.timestamp hc2))

/-- Claim C5 (amended): from the empty buffer, after any sequence of
`append_or_replace` operations the buffer never exceeds `BUFFER_SIZE = 50`
candles; and when the incoming candles arrive with non-decreasing timestamps —
the order the exchange stream delivers them — the tail candle's timestamp is
maximal among all buffered candles.  Without the ordering hypothesis the tail
is not maximal (see the counterexample). -/
theorem C5_buffer_bounded_tail_max (cs : List Candle) :
    (run_buffer cs).length ≤ BUFFER_SIZE ∧
    ((cs.map Candle.timestamp).Sorted (· ≤ ·) →
      ∀ x ∈ run_buffer cs, ∀ l ∈ (run_buffer cs).getLast?,
        x.timestamp ≤ l.timestamp) := by
  constructor
  · exact foldl_append_or_replace_length cs [] (by simp [BUFFER_SIZE])
  · intro hs
    exact foldl_append_or_replace_tail_max cs [] hs (by simp) (by simp)

/-- Counterexample to C5 as stated: feeding timestamps 100 then 50 leaves the
candle with timestamp 100 in the buffer while the tail has timestamp 50, so
the tail timestamp is not maximal after an arbitrary operation sequence. -/
theorem C5_out_of_order_counterexample :
    Candle.mk 100 0 0 0 0 0 ∈
      run_buffer [⟨100, 0, 0, 0, 0, 0⟩, ⟨50, 0, 0, 0, 0, 0⟩] ∧
    (run_buffer [(⟨100, 0, 0, 0, 0, 0⟩ : Candle), ⟨50, 0, 0, 0, 0, 0⟩]).getLast? =
      some ⟨50, 0, 0, 0, 0, 0⟩ ∧
    ¬ (∀ x ∈ run_buffer [(⟨100, 0, 0, 0, 0, 0⟩ : Candle), ⟨50, 0, 0, 0, 0, 0⟩],
        ∀ l ∈ (run_buffer [(⟨100, 0, 0, 0, 0, 0⟩ : Candle),
            ⟨50, 0, 0, 0, 0, 0⟩]).getLast?,
          x.timestamp ≤ l.timestamp) := by
  have hrb : run_buffer [(⟨100, 0, 0, 0, 0, 0⟩ : Candle), ⟨50, 0, 0, 0, 0, 0⟩] =
      [⟨100, 0, 0, 0, 0, 0⟩, ⟨50, 0, 0, 0, 0, 0⟩] := by
    rfl
  refine ⟨by rw [hrb]; simp, by rw [hrb]; rfl, ?_⟩
  intro hall
  have h100 := hall ⟨100, 0, 0, 0, 0, 0⟩ (by rw [hrb]; simp) ⟨50, 0, 0, 0, 0, 0⟩
    (by rw [hrb]; rfl)
  exact absurd h100 (by decide)

/-- Witness for C5 at a concrete sorted input of two candles. -/
theorem C5_buffer_bounded_tail_max_witness :
    (run_buffer [(⟨1, 0, 0, 0, 0, 0⟩ : Candle), ⟨2, 0, 0, 0, 0, 0⟩]).length ≤
      BUFFER_SIZE ∧
    ∀ x ∈ run_buffer [(⟨1, 0, 0, 0, 0, 0⟩ : Candle), ⟨2, 0, 0, 0, 0, 0⟩],
      ∀ l ∈ (run_buffer [(⟨1, 0, 0, 0, 0, 0⟩ : Candle),
          ⟨2, 0, 0, 0, 0, 0⟩]).getLast?,
        x.timestamp ≤ l.timestamp :=
  ⟨(C5_buffer_bounded_tail_max _).1,
   (C5_buffer_bounded_tail_max _).2
     (by simp [List.sorted_cons])⟩

/-- A successful attempt stops `with_retry_go` immediately with no sleeps. -/
theorem with_retry_go_ok (attempts : ℕ → Except BybitError α) (a d n : ℕ) (v : α)
    (h : attempts a = .ok v) :
    with_retry_go attempts a d n = (.ok v, []) := by
  cases n <;> simp [with_retry_go, h]

/-- Every attempt transient: the sleep schedule starting from delay
`min (2 ^ k) 60` is `min (2 ^ (k + i)) 60` for `i < n`. -/
theorem with_retry_go_transient (m : String) (n : ℕ) :
    ∀ (a k : ℕ),
      with_retry_go (α := α) (fun _ => .error (.transient m)) a (min (2 ^ k) 60) n =
        (.error (.transient m), (List.range n).map (fun i => min (2 ^ (k + i)) 60)) := by
  induction n with
  | zero => intro a k; simp [with_retry_go]
  | succ n ih =>
    intro a k
    have hmin : min (min (2 ^ k) 60 * 2) 60 = min (2 ^ (k + 1)) 60 := by
      rcases le_total (2 ^ k) 60 with h | h
      · rw [min_eq_left h, pow_succ]
      · have h2 : (2 : ℕ) ^ (k + 1) = 2 ^ k * 2 := pow_succ 2 k
        rw [min_eq_right h]
        omega
    rw [with_retry_go]
    simp only [hmin, ih (a + 1) (k + 1)]
    rw [List.range_succ_eq_map]
    simp only [List.map_cons, List.map_map, Prod.mk.injEq]
    refine ⟨trivial, ?_⟩
    rw [Nat.add_zero]
    congr 1
    apply List.map_congr_left
    intro i _
    simp only [Function.comp_apply]
    congr 2
    omega

/-- Claim C6 (amended): the retry policy `with_retry` returns a `Permanent`
error immediately with no sleep, retries `Transient` errors with delays
`1, 2, 4, …` seconds capped at 60, and sleeps `retry_after` before retrying on
`RateLimit` (with `classify_error` defaulting `retry_after` to 10); the
operations `place_order` and `close_position` are wrapped with 3 retries and
`get_position` (read-only position fetch) with 5, `fetch_klines` with 3 — but
`get_all_open_positions` issues a single attempt and is NOT wrapped by the
retry policy. -/
theorem C6_retry_policy (attempts : ℕ → Except BybitError α)
    (env : ℕ → HttpResult β) (n : ℕ) (m : String) (ra : ℕ) (v : α) :
    (place_order env = with_retry (fun i => processResponse (env i)) 3 ∧
     close_position env = with_retry (fun i => processResponse (env i)) 3 ∧
     get_position env = with_retry (fun i => processResponse (env i)) 5 ∧
     fetch_klines env = with_retry (fun i => processResponse (env i)) 3 ∧
     get_all_open_positions env = processResponse (env 0)) ∧
    (attempts 0 = .error (.permanent m) →
      with_retry attempts n = (.error (.permanent m), [])) ∧
    (with_retry (α := α) (fun _ => .error (.transient m)) n =
      (.error (.transient m), (List.range n).map (fun i => min (2 ^ i) 60))) ∧
    ((∀ s msg, classify_error 10006 s msg = .rateLimit 10) ∧
     (attempts 0 = .error (.rateLimit ra) → attempts 1 = .ok v → 1 ≤ n →
      with_retry attempts n = (.ok v, [ra]))) := by
  refine ⟨⟨rfl, rfl, rfl, rfl, rfl⟩, ?_, ?_, ?_, ?_⟩
  · intro h
    cases n <;> simp [with_retry, with_retry_go, h]
  · have := with_retry_go_transient (α := α) m n 0 0
    simpa [with_retry] using this
  · intro s msg
    rw [classify_error, if_pos (Or.inl rfl)]
  · intro h0 h1 hn
    cases n with
    | zero => omega
    | succ n =>
        rw [with_retry, with_retry_go]
        simp only [h0]
        rw [with_retry_go_ok attempts (0 + 1) 1 n v h1]

/-- Counterexample to C6 as stated: in an environment whose first attempt is a
transient transport failure and whose second attempt succeeds,
`get_all_open_positions` returns the transient error while the retry-wrapped
computation (5 retries, as for the other read-only position fetch) succeeds —
so `get_all_open_positions` is not wrapped by the retry policy. -/
theorem C6_get_all_open_positions_not_retried :
    get_all_open_positions
        (fun i => match i with
          | 0 => HttpResult.fail "timeout"
          | _ + 1 => HttpResult.reply 0 200 "" (7 : ℕ)) =
      .error (.transient "timeout") ∧
    (with_retry
        (fun i => processResponse
          (match i with
            | 0 => HttpResult.fail "timeout"
            | _ + 1 => HttpResult.reply 0 200 "" (7 : ℕ))) 5).1 = .ok 7 ∧
    get_all_open_positions
        (fun i => match i with
          | 0 => HttpResult.fail "timeout"
          | _ + 1 => HttpResult.reply 0 200 "" (7 : ℕ)) ≠
      (with_retry
        (fun i => processResponse
          (match i with
            | 0 => HttpResult.fail "timeout"
            | _ + 1 => HttpResult.reply 0 200 "" (7 : ℕ))) 5).1 := by
  refine ⟨rfl, rfl, ?_⟩
  intro h
  rw [show (with_retry
      (fun i => processResponse
        (match i with
          | 0 => HttpResult.fail "timeout"
          | _ + 1 => HttpResult.reply 0 200 "" (7 : ℕ))) 5).1 = .ok 7 from rfl] at h
  exact Except.noConfusion h

/-- Witness for C6 at concrete inputs: a permanent error returns immediately
with no sleep; seven straight transient failures sleep 1, 2, 4, 8, 16, 32, 60;
a rate-limited first attempt sleeps 10 and then succeeds. -/
theorem C6_retry_policy_witness :
    with_retry (α := ℕ) (fun _ => .error (.permanent "bad")) 3 =
      (.error (.permanent "bad"), []) ∧
    with_retry (α := ℕ) (fun _ => .error (.transient "boom")) 7 =
      (.error (.transient "boom"), [1, 2, 4, 8, 16, 32, 60]) ∧
    with_retry (α := ℕ)
        (fun i => match i with
          | 0 => .error (.rateLimit 10)
          | _ + 1 => .ok 42) 5 =
      (.ok 42, [10]) := by
  refine ⟨?_, ?_, ?_⟩
  · exact (C6_retry_policy (fun _ => .error (.permanent "bad"))
      (fun _ => HttpResult.fail "x" (α := ℕ)) 3 "bad" 0 0).2.1 rfl
  · exact ((C6_retry_policy (α := ℕ) (fun _ => .error (.transient "boom"))
      (fun _ => HttpResult.fail "x" (α := ℕ)) 7 "boom" 0 0).2.2.1).trans (by rfl)
  · exact (C6_retry_policy
      (fun i => match i with
        | 0 => .error (.rateLimit 10)
        | _ + 1 => .ok 42)
      (fun _ => HttpResult.fail "x" (α := ℕ)) 5 "m" 10 42).2.2.2.2 rfl rfl
      (by omega)

/-- Inserting into the positions map grows it by at most one binding. -/
theorem insertPos_length_le (m : PosMap) (k : String) (v : OpenPosition) :
    (insertPos m k v).length ≤ m.length + 1 := by
  rw [insertPos]
  split_ifs with h
  · rw [List.length_map]
    omega
  · rw [List.length_append]
    simp

/-- Folding conditional inserts grows the positions map by at most the number
of pending entries. -/
theorem foldl_insert_length (l : List (String × OpenPosition))
    (succeeds : String → Bool) :
    ∀ m : PosMap,
      (l.foldl (fun m kv => if succeeds kv.1 then insertPos m kv.1 kv.2 else m)
        m).length ≤ m.length + l.length := by
  induction l with
  | nil => intro m; simp
  | cons kv l ih =>
    intro m
    simp only [List.foldl_cons, List.length_cons]
    refine le_trans (ih _) ?_
    split_ifs with h
    · have := insertPos_length_le m kv.1 kv.2
      omega
    · omega

/-- Keys of one reconcile step: the step's keys are the accumulator's keys
plus the processed exchange symbol. -/
theorem reconcile_step_keys (m : PosMap) (si : String × ExchangePositionInfo)
    (k : String) :
    k ∈ (reconcile_step m si).map Prod.fst ↔
      k ∈ m.map Prod.fst ∨ k = si.1 := by
  rw [reconcile_step]
  split_ifs with hmem
  · have hkeys : (m.map (fun kv =>
        if kv.1 = si.1 then
          (kv.1,
            if |kv.2.data.position_size - si.2.size| > 1 / 1000 then
              { kv.2 with data := { kv.2.data with position_size := si.2.size } }
            else kv.2)
        else kv)).map Prod.fst = m.map Prod.fst := by
      rw [List.map_map]
      apply List.map_congr_left
      intro kv _
      by_cases hkv : kv.1 = si.1 <;> simp [hkv]
    rw [hkeys]
    constructor
    · exact Or.inl
    · rintro (h | rfl)
      · exact h
      · rw [List.any_eq_true] at hmem
        obtain ⟨kv, hkv, heq⟩ := hmem
        rw [decide_eq_true_eq] at heq
        exact List.mem_map.mpr ⟨kv, hkv, heq⟩
  · rw [List.map_append]
    simp only [List.map_cons, List.map_nil]
    rw [List.mem_append, List.mem_singleton]

/-- Keys after folding reconcile steps: accumulator keys plus every processed
exchange symbol. -/
theorem reconcile_fold_keys (exchange : List (String × ExchangePositionInfo))
    (k : String) :
    ∀ m : PosMap,
      k ∈ (exchange.foldl reconcile_step m).map Prod.fst ↔
        k ∈ m.map Prod.fst ∨ k ∈ exchange.map Prod.fst := by
  induction exchange with
  | nil => intro m; simp
  | cons si rest ih =>
    intro m
    simp only [List.foldl_cons, List.map_cons, List.mem_cons]
    rw [ih (reconcile_step m si), reconcile_step_keys]
    tauto

/-- Claim C2 (amended): the positions map is keyed by symbol — insertion
preserves key distinctness, so at most one position per symbol holds at every
point; the order-placement step of a cycle never raises the local count above
`MAX_OPEN_POSITIONS` when it was within the cap (it clears all pending orders
when the exchange already reports the cap and takes at most
`MAX_OPEN_POSITIONS − |positions|` orders); but startup reconciliation leaves
the local map holding exactly the exchange's open symbols, with no cap — with
more than `MAX_OPEN_POSITIONS` exchange positions the local map exceeds the
cap (see the counterexample). -/
theorem C2_position_caps (positions : PosMap)
    (pending : List (String × OpenPosition)) (exchange_open : ℕ)
    (succeeds : String → Bool) (m locals : PosMap) (k : String)
    (v : OpenPosition) (exchange : List (String × ExchangePositionInfo)) :
    (positions.length ≤ MAX_OPEN_POSITIONS →
      (place_pending_orders positions pending exchange_open succeeds).length ≤
        MAX_OPEN_POSITIONS) ∧
    ((m.map Prod.fst).Nodup → ((insertPos m k v).map Prod.fst).Nodup) ∧
    (k ∈ (reconcile_positions locals exchange).map Prod.fst ↔
      k ∈ exchange.map Prod.fst) := by
  refine ⟨?_, ?_, ?_⟩
  · intro h
    rw [place_pending_orders]
    dsimp only
    split_ifs with hemp hcap
    · exact h
    · refine le_trans (foldl_insert_length _ succeeds positions) ?_
      simpa using h
    · refine le_trans (foldl_insert_length _ succeeds positions) ?_
      have ht := List.length_take (MAX_OPEN_POSITIONS - positions.length) pending
      omega
  · intro h
    rw [insertPos]
    split_ifs with hmem
    · have hkeys : (m.map (fun kv => if kv.1 = k then (k, v) else kv)).map
          Prod.fst = m.map Prod.fst := by
        rw [List.map_map]
        apply List.map_congr_left
        intro kv _
        by_cases hkv : kv.1 = k <;> simp [hkv]
      rw [hkeys]
      exact h
    · rw [List.map_append]
      simp only [List.map_cons, List.map_nil]
      rw [List.nodup_append]
      refine ⟨h, List.nodup_singleton k, ?_⟩
      intro a ha hb
      rw [List.mem_singleton] at hb
      subst hb
      apply hmem
      rw [List.any_eq_true]
      obtain ⟨kv, hkv, hfst⟩ := List.mem_map.mp ha
      exact ⟨kv, hkv, by simp [hfst]⟩
  · rw [reconcile_positions]
    rw [reconcile_fold_keys]
    constructor
    · rintro (h | h)
      · obtain ⟨kv, hkv, rfl⟩ := List.mem_map.mp h
        have hf := List.of_mem_filter hkv
        rw [List.any_eq_true] at hf
        obtain ⟨si, hsi, heq⟩ := hf
        rw [decide_eq_true_eq] at heq
        exact List.mem_map.mpr ⟨si, hsi, heq⟩
      · exact h
    · exact Or.inr

/-- Exchange position record used by the C2 counterexample and witness. -/
def exInfoW : ExchangePositionInfo := ⟨"Buy", 1, 100, 90, 110, 0⟩

/-- Counterexample to C2 as stated: startup reconciliation of an empty local
map against three open exchange positions imports all three orphans, so the
local positions map holds 3 > `MAX_OPEN_POSITIONS` = 2 positions. -/
theorem C2_reconcile_exceeds_cap :
    (reconcile_positions []
        [("AAAUSDT", exInfoW), ("BBBUSDT", exInfoW), ("CCCUSDT", exInfoW)]).length
      = 3 ∧
    ¬ ((reconcile_positions []
        [("AAAUSDT", exInfoW), ("BBBUSDT", exInfoW), ("CCCUSDT", exInfoW)]).length
      ≤ MAX_OPEN_POSITIONS) := by
  have h3 : (reconcile_positions []
      [("AAAUSDT", exInfoW), ("BBBUSDT", exInfoW), ("CCCUSDT", exInfoW)]).length
      = 3 := rfl
  refine ⟨h3, ?_⟩
  rw [h3]
  decide

/-- Witness for C2 at concrete inputs: placing one pending order from an empty
map stays within the cap, inserting into an empty map keeps keys distinct, and
reconciliation mirrors a one-symbol exchange map. -/
theorem C2_position_caps_witness :
    (place_pending_orders [] [("BTCUSDT", orphan_to_open_position exInfoW)] 0
        (fun _ => true)).length ≤ MAX_OPEN_POSITIONS ∧
    ((insertPos [] "BTCUSDT" (orphan_to_open_position exInfoW)).map
        Prod.fst).Nodup ∧
    ("AAAUSDT" ∈ (reconcile_positions [] [("AAAUSDT", exInfoW)]).map Prod.fst ↔
      "AAAUSDT" ∈ [("AAAUSDT", exInfoW)].map Prod.fst) :=
  ⟨(C2_position_caps [] [("BTCUSDT", orphan_to_open_position exInfoW)] 0
      (fun _ => true) [] [] "AAAUSDT" (orphan_to_open_position exInfoW)
      [("AAAUSDT", exInfoW)]).1 (by decide),
   (C2_position_caps [] [("BTCUSDT", orphan_to_open_position exInfoW)] 0
      (fun _ => true) [] [] "BTCUSDT" (orphan_to_open_position exInfoW)
      [("AAAUSDT", exInfoW)]).2.1 (by simp),
   (C2_position_caps [] [("BTCUSDT", orphan_to_open_position exInfoW)] 0
      (fun _ => true) [] [] "AAAUSDT" (orphan_to_open_position exInfoW)
      [("AAAUSDT", exInfoW)]).2.2⟩

end BotFvg
